import Mathlib

/-!
Verification of the contact-directory core of `src/main.py`: the `Phone`
value object with its 10-digit validation, the `Record` phone-list
operations, and the `AddressBook` mapping.  Python exceptions are embedded
as explicit `Except` results; the mutable phone list and dictionary are
embedded as a `List Phone` and an association list with explicit state
passing.
-/

set_option autoImplicit false

namespace Main

/-- The kinds of Python exception the module can raise: `ValueError` from
`Phone.__init__` and `Record.edit_phone`, `TypeError` from `list.pop(None)`,
`IndexError` from `list.pop` with an out-of-range index, and the custom
`RecordAlreadyExistsException` from `AddressBook.add_record`. -/
inductive PyError where
  | valueError (msg : String)
  | typeError (msg : String)
  | indexError (msg : String)
  | recordAlreadyExists (msg : String)
deriving DecidableEq, Repr

/-- A `Phone` field: the wrapped string value (`Field.value`). -/
structure Phone where
  value : String
deriving DecidableEq, Repr

/-- The first maximal run of decimal digits in a character list, as found by
`re.search('\d+', phone)`: skip to the first digit, then take the digits.
Returns `[]` when the string holds no digit (the `match is None` branch of
`numbers = match.group() if match else ""`). -/
def firstDigitRun (l : List Char) : List Char :=
  (l.dropWhile (fun c => !c.isDigit)).takeWhile (fun c => c.isDigit)

/-- The message of the `ValueError` raised by `Phone.__init__`. -/
def phoneErrMsg (phone : String) : String :=
  "Phone number must have only digits with length 10, but number: '" ++ phone ++
    "' was given with the length " ++ toString phone.length

/-- `Phone.__init__`: the validation of `src/main.py` lines 40-48.  `numbers`
is the first digit run; construction fails with a `ValueError` unless the
string length is 10 and the run covers the whole string, and on success the
given string is stored unchanged. -/
def mkPhone (phone : String) : Except PyError Phone :=
  let numbers := firstDigitRun phone.data
  let phoneNumberLen := phone.length
  if phoneNumberLen ≠ 10 ∨ numbers.length ≠ phoneNumberLen then
    Except.error (PyError.valueError (phoneErrMsg phone))
  else
    Except.ok { value := phone }

/-- A `Record`: the contact name (a `Name` field, immutable after creation)
and the ordered list of `Phone` objects. -/
structure Record where
  name : String
  phones : List Phone
deriving DecidableEq, Repr

/-- The enumerate loop of `Record.get_phone_by_number` over a phone list:
the first phone whose value equals `num`, together with its index, or `none`
for the `(None, None)` return. -/
def findPhoneAux (num : String) : List Phone → Option (Phone × Nat)
  | [] => none
  | p :: ps =>
    if p.value = num then some (p, 0)
    else (findPhoneAux num ps).map (fun x => (x.1, x.2 + 1))

/-- `Record.get_phone_by_number`. -/
def getPhoneByNumber (r : Record) (phoneNum : String) : Option (Phone × Nat) :=
  findPhoneAux phoneNum r.phones

/-- `Record.add_phone`: construct a `Phone` (validating) and append it.  A
`ValueError` from the constructor propagates and the list is unchanged. -/
def addPhone (r : Record) (phoneNum : String) : Except PyError Record :=
  match mkPhone phoneNum with
  | Except.ok p => Except.ok { r with phones := r.phones ++ [p] }
  | Except.error e => Except.error e

/-- The message of the `ValueError` raised by `Record.edit_phone` when the
old number is not found. -/
def editErrMsg (r : Record) (oldPhone : String) : String :=
  "Phone with the number '" ++ oldPhone ++ "' was not found for the user '" ++
    r.name ++ "'"

/-- `Record.edit_phone`: locate the first phone equal to `old_phone`; if
found, overwrite the stored value at that position with `new_phone`
(`self.phones[idx].value = new_phone` — no `Phone` constructor, hence no
validation of the new value); otherwise raise a `ValueError`. -/
def editPhone (r : Record) (oldPhone newPhone : String) : Except PyError Record :=
  match getPhoneByNumber r oldPhone with
  | some x => Except.ok { r with phones := r.phones.set x.2 { value := newPhone } }
  | none => Except.error (PyError.valueError (editErrMsg r oldPhone))

/-- Python `list.pop` applied to the index returned by the lookup:
`pop(None)` raises a `TypeError`, `pop(i)` with `i` out of range raises an
`IndexError`, otherwise the element at `i` is removed. -/
def listPop (l : List Phone) (idx : Option Nat) : Except PyError (List Phone) :=
  match idx with
  | none => Except.error (PyError.typeError
      "'NoneType' object cannot be interpreted as an integer")
  | some i =>
    if i < l.length then Except.ok (l.eraseIdx i)
    else Except.error (PyError.indexError "pop index out of range")

/-- `Record.remove_phone`: look the number up and `pop` the returned index. -/
def removePhone (r : Record) (phoneNum : String) : Except PyError Record :=
  match listPop r.phones ((getPhoneByNumber r phoneNum).map (fun x => x.2)) with
  | Except.ok ps => Except.ok { r with phones := ps }
  | Except.error e => Except.error e

/-- `Record.find_phone`: the phone component of the lookup, or `None`. -/
def findPhone (r : Record) (phoneNum : String) : Option Phone :=
  (getPhoneByNumber r phoneNum).map (fun x => x.1)

/-- `Record.__str__`: the f-string of `src/main.py` line 61. -/
def recordStr (r : Record) : String :=
  "Contact name: " ++ r.name ++ ", phones: " ++
    String.intercalate "; " (r.phones.map Phone.value)

/-- An `AddressBook`'s underlying dictionary (`self.data` of `UserDict`):
an association list from client name to record, new keys appended at the
end as Python dict insertion does. -/
abbrev Book := List (String × Record)

/-- Dictionary key membership (`record.name.value not in self.data`) /
lookup (`self.data.get(name)`): the first entry with the given key. -/
def bookFind (b : Book) (name : String) : Option Record :=
  (b.find? (fun e => e.1 == name)).map (fun e => e.2)

/-- `AddressBook.add_record`: insert under key `record.name.value` when the
key is absent, else raise `RecordAlreadyExistsException`. -/
def addRecord (b : Book) (r : Record) : Except PyError Book :=
  match bookFind b r.name with
  | none => Except.ok (b ++ [(r.name, r)])
  | some _ => Except.error (PyError.recordAlreadyExists
      ("Record with the name '" ++ r.name ++
        "' already exists in the address book dictionary"))

/-- `AddressBook.delete`: `self.data.pop(name)` when `self.data.get(name)`
is truthy (a stored `Record` object is always truthy), else do nothing. -/
def bookDelete (b : Book) (name : String) : Book :=
  match bookFind b name with
  | some _ => b.eraseP (fun e => e.1 == name)
  | none => b

/-- The record state after `Record.add_phone` together with the exception
raised, if any: a Python exception propagates and leaves the list as it was
(the `raise` in `Phone.__init__` happens before the `append`). -/
def addPhoneState (r : Record) (phoneNum : String) : Record × Option PyError :=
  match addPhone r phoneNum with
  | Except.ok r2 => (r2, none)
  | Except.error e => (r, some e)

/-- The record state after `Record.edit_phone` together with the exception
raised, if any (the `raise` happens instead of any mutation). -/
def editPhoneState (r : Record) (oldPhone newPhone : String) :
    Record × Option PyError :=
  match editPhone r oldPhone newPhone with
  | Except.ok r2 => (r2, none)
  | Except.error e => (r, some e)

/-- The record state after `Record.remove_phone` together with the exception
raised, if any (`list.pop` raises before mutating the list). -/
def removePhoneState (r : Record) (phoneNum : String) : Record × Option PyError :=
  match removePhone r phoneNum with
  | Except.ok r2 => (r2, none)
  | Except.error e => (r, some e)

/-- The book state after `AddressBook.add_record` together with the
exception raised, if any (the `raise` happens instead of the insertion). -/
def addRecordState (b : Book) (r : Record) : Book × Option PyError :=
  match addRecord b r with
  | Except.ok b2 => (b2, none)
  | Except.error e => (b, some e)

/-- A mutating `Record` operation, as invoked on a record stored in the
book. (`find_phone` and `get_phone_by_number` are queries and mutate
nothing, so they are omitted from the step relation.) -/
inductive PhoneOp where
  | add (v : String)
  | edit (o n : String)
  | remove (v : String)

/-- The record state after running one phone operation; an exception leaves
the record unchanged. -/
def applyPhoneOp (r : Record) : PhoneOp → Record
  | PhoneOp.add v => (addPhoneState r v).1
  | PhoneOp.edit o n => (editPhoneState r o n).1
  | PhoneOp.remove v => (removePhoneState r v).1

/-- Mutating a `Record` object aliased from the dictionary updates the
stored value in place; the key is untouched. -/
def updateRecord (b : Book) (n : String) (r2 : Record) : Book :=
  b.map (fun e => if e.1 == n then (e.1, r2) else e)

/-- The books reachable from an empty `AddressBook` by the public
operations: a successful `add_record`, a `delete` (`find` queries and
failed `add_record` calls leave the book unchanged), and any phone
operation applied to a record looked up in the book. -/
inductive Reachable : Book → Prop where
  | empty : Reachable []
  | addOk (b : Book) (r : Record) (b2 : Book) :
      Reachable b → addRecord b r = Except.ok b2 → Reachable b2
  | del (b : Book) (n : String) : Reachable b → Reachable (bookDelete b n)
  | phoneOp (b : Book) (n : String) (r : Record) (op : PhoneOp) :
      Reachable b → bookFind b n = some r →
      Reachable (updateRecord b n (applyPhoneOp r op))

/-- The key-consistency invariant of the `AddressBook`: every key equals
the name of the record stored under it, and keys are unique. -/
def keyInvariant (b : Book) : Prop :=
  (∀ e ∈ b, e.1 = e.2.name) ∧ (b.map Prod.fst).Nodup

/-! ### Helper lemmas about the digit-run validation -/

theorem takeWhile_length_eq_iff (p : Char → Bool) (l : List Char) :
    (l.takeWhile p).length = l.length ↔ ∀ x ∈ l, p x = true := by
  constructor
  · intro h
    rw [← List.takeWhile_eq_self_iff]
    exact (List.takeWhile_prefix p).eq_of_length h
  · intro h
    rw [List.takeWhile_eq_self_iff.mpr h]

theorem firstDigitRun_length_le (l : List Char) :
    (firstDigitRun l).length ≤ l.length :=
  le_trans (List.takeWhile_prefix _).length_le (List.dropWhile_suffix _).length_le

theorem firstDigitRun_length_eq_iff (l : List Char) :
    (firstDigitRun l).length = l.length ↔ ∀ x ∈ l, x.isDigit = true := by
  induction l with
  | nil => simp [firstDigitRun]
  | cons c cs ih =>
    by_cases hc : c.isDigit
    · have hrun : firstDigitRun (c :: cs) = c :: cs.takeWhile (fun x => x.isDigit) := by
        simp [firstDigitRun, List.dropWhile_cons, hc]
      rw [hrun]
      simp only [List.length_cons, Nat.succ_inj, List.mem_cons]
      rw [takeWhile_length_eq_iff]
      constructor
      · rintro h x (rfl | hx)
        · exact hc
        · exact h x hx
      · intro h x hx
        exact h x (Or.inr hx)
    · have hrun : firstDigitRun (c :: cs) = firstDigitRun cs := by
        simp [firstDigitRun, List.dropWhile_cons, hc]
      constructor
      · intro h
        have := firstDigitRun_length_le cs
        rw [hrun] at h
        simp [List.length_cons] at h
        omega
      · intro h
        exact absurd (h c (List.mem_cons_self c cs)) hc

/-- Claim C1: constructing a `Phone` from `s` succeeds if and only if `s` has
length exactly 10 and every character of `s` is a decimal digit; on success
the stored value equals `s`, and otherwise construction fails with the
`ValueError` carrying the validation message. -/
theorem mkPhone_spec (s : String) :
    (mkPhone s = Except.ok { value := s } ↔
      s.length = 10 ∧ ∀ c ∈ s.data, c.isDigit = true)
    ∧ (¬(s.length = 10 ∧ ∀ c ∈ s.data, c.isDigit = true) →
        mkPhone s = Except.error (PyError.valueError (phoneErrMsg s)))
    ∧ (∀ p, mkPhone s = Except.ok p → p.value = s) := by
  have hlen : s.length = s.data.length := rfl
  have hcond : (s.length = 10 ∧ ∀ c ∈ s.data, c.isDigit = true) ↔
      ¬(s.length ≠ 10 ∨ (firstDigitRun s.data).length ≠ s.length) := by
    rw [not_or, not_ne_iff, not_ne_iff]
    constructor
    · rintro ⟨h10, hdig⟩
      refine ⟨h10, ?_⟩
      rw [hlen]
      exact (firstDigitRun_length_eq_iff s.data).mpr hdig
    · rintro ⟨h10, hrun⟩
      refine ⟨h10, ?_⟩
      rw [hlen] at hrun
      exact (firstDigitRun_length_eq_iff s.data).mp hrun
  by_cases h : s.length ≠ 10 ∨ (firstDigitRun s.data).length ≠ s.length
  · refine ⟨?_, ?_, ?_⟩
    · simp only [mkPhone, if_pos h]
      constructor
      · intro hok
        exact absurd hok (by simp)
      · intro hval
        exact absurd h (hcond.mp hval)
    · intro _
      simp only [mkPhone, if_pos h]
    · intro p hp
      simp only [mkPhone, if_pos h] at hp
      exact Except.noConfusion hp
  · refine ⟨?_, ?_, ?_⟩
    · simp only [mkPhone, if_neg h]
      constructor
      · intro _
        exact hcond.mpr h
      · intro _
        trivial
    · intro hval
      exact absurd (hcond.mpr h) hval
    · intro p hp
      simp only [mkPhone, if_neg h, Except.ok.injEq] at hp
      rw [← hp]

/-- Witness for C1: the all-digit 10-character string `1234567890` is
accepted and stored unchanged, while `123-456-78` (length 10 with
separators) is rejected with a `ValueError`. -/
theorem mkPhone_spec_witness :
    mkPhone "1234567890" = Except.ok { value := "1234567890" } ∧
      mkPhone "123-456-78" =
        Except.error (PyError.valueError (phoneErrMsg "123-456-78")) :=
  ⟨(mkPhone_spec "1234567890").1.mpr (by decide),
    (mkPhone_spec "123-456-78").2.1 (by decide)⟩

/-! ### Helper lemmas about the phone-list lookup -/

theorem findPhoneAux_eq_none_iff (num : String) (l : List Phone) :
    findPhoneAux num l = none ↔ ∀ p ∈ l, p.value ≠ num := by
  induction l with
  | nil => simp [findPhoneAux]
  | cons p ps ih =>
    by_cases h : p.value = num
    · simp [findPhoneAux, h]
    · simp [findPhoneAux, h, ih]

theorem findPhoneAux_eq_some (num : String) (l : List Phone) (p : Phone)
    (i : Nat) (h : findPhoneAux num l = some (p, i)) :
    ∃ l1 l2, l = l1 ++ p :: l2 ∧ l1.length = i ∧ p.value = num ∧
      ∀ q ∈ l1, q.value ≠ num := by
  induction l generalizing i with
  | nil => simp [findPhoneAux] at h
  | cons q qs ih =>
    by_cases hq : q.value = num
    · simp only [findPhoneAux, if_pos hq, Option.some.injEq, Prod.mk.injEq] at h
      obtain ⟨rfl, rfl⟩ := h
      exact ⟨[], qs, rfl, rfl, hq, by simp⟩
    · simp only [findPhoneAux, if_neg hq, Option.map_eq_some'] at h
      obtain ⟨⟨p1, j⟩, hfind, hpj⟩ := h
      simp only [Prod.mk.injEq] at hpj
      obtain ⟨rfl, rfl⟩ := hpj
      obtain ⟨l1, l2, rfl, rfl, hval, hfree⟩ := ih j hfind
      refine ⟨q :: l1, l2, rfl, by simp, hval, ?_⟩
      intro x hx
      rcases List.mem_cons.mp hx with rfl | hx
      · exact hq
      · exact hfree x hx

theorem findPhoneAux_first (num : String) (l1 : List Phone) (q : Phone)
    (l2 : List Phone) (h1 : ∀ p ∈ l1, p.value ≠ num) (hq : q.value = num) :
    findPhoneAux num (l1 ++ q :: l2) = some (q, l1.length) := by
  induction l1 with
  | nil => simp [findPhoneAux, hq]
  | cons x xs ih =>
    have hx : x.value ≠ num := h1 x (List.mem_cons_self x xs)
    have hxs : ∀ p ∈ xs, p.value ≠ num := fun p hp => h1 p (List.mem_cons_of_mem x hp)
    show findPhoneAux num (x :: (xs ++ q :: l2)) = some (q, xs.length + 1)
    simp only [findPhoneAux, if_neg hx]
    change (findPhoneAux num (xs ++ q :: l2)).map (fun x => (x.1, x.2 + 1)) =
      some (q, xs.length + 1)
    rw [ih hxs]
    rfl

theorem set_append_length (l1 : List Phone) (q : Phone) (l2 : List Phone)
    (x : Phone) : (l1 ++ q :: l2).set l1.length x = l1 ++ x :: l2 := by
  induction l1 with
  | nil => rfl
  | cons a as ih => simp [List.set, ih]

theorem eraseIdx_append_length (l1 : List Phone) (q : Phone) (l2 : List Phone) :
    (l1 ++ q :: l2).eraseIdx l1.length = l1 ++ l2 := by
  induction l1 with
  | nil => rfl
  | cons a as ih => simp [List.eraseIdx, ih]

/-! ### Claims C2 and C3: edit_phone -/

/-- Counterexample to claim C2: the record John holds the valid phone
`1234567890`; the string `abc` fails the 10-digit validation, yet
`edit_phone("1234567890", "abc")` raises nothing and stores `abc`, because
`edit_phone` assigns `self.phones[idx].value = new_phone` without calling
the `Phone` constructor. -/
theorem editPhone_no_validation_cex :
    mkPhone "abc" = Except.error (PyError.valueError (phoneErrMsg "abc")) ∧
      editPhone { name := "John", phones := [{ value := "1234567890" }] }
          "1234567890" "abc" =
        Except.ok { name := "John", phones := [{ value := "abc" }] } :=
  ⟨rfl, rfl⟩

/-- Claim C2 as amended: `edit_phone` performs no validation of the new
value: whenever `old_value` is present, it succeeds and overwrites the
first matching position with `new_value`, for every string `new_value`,
valid or not; no `ValidationError` is raised at edit time. -/
theorem editPhone_no_validation (r : Record) (o n : String) (p : Phone)
    (i : Nat) (h : getPhoneByNumber r o = some (p, i)) :
    editPhone r o n =
      Except.ok { r with phones := r.phones.set i { value := n } } := by
  simp [editPhone, h]

/-- Witness for the amended C2: editing the present value `1234567890` to
the invalid string `abc` succeeds. -/
theorem editPhone_no_validation_witness :
    editPhone { name := "John", phones := [{ value := "1234567890" }] }
        "1234567890" "abc" =
      Except.ok { name := "John", phones := [{ value := "abc" }] } :=
  editPhone_no_validation
    { name := "John", phones := [{ value := "1234567890" }] }
    "1234567890" "abc" { value := "1234567890" } 0 rfl

/-- Claim C3: when no phone in the record's list has value `old`,
`edit_phone(old, new)` raises a `ValueError` whose message names the
missing old value and the record's contact name, and the record — in
particular its phone list — is left unchanged. -/
theorem editPhone_notFound (r : Record) (o n : String)
    (h : ∀ p ∈ r.phones, p.value ≠ o) :
    editPhoneState r o n =
      (r, some (PyError.valueError
        ("Phone with the number '" ++ o ++ "' was not found for the user '" ++
          r.name ++ "'"))) := by
  have hfind : getPhoneByNumber r o = none :=
    (findPhoneAux_eq_none_iff o r.phones).mpr h
  simp [editPhoneState, editPhone, hfind, editErrMsg]

/-- Witness for C3: editing the absent value `9999999999` on John fails
with the not-found message and leaves the record unchanged. -/
theorem editPhone_notFound_witness :
    editPhoneState { name := "John", phones := [{ value := "1234567890" }] }
        "9999999999" "1112223333" =
      ({ name := "John", phones := [{ value := "1234567890" }] },
        some (PyError.valueError
          ("Phone with the number '9999999999' was not found for the user 'John'"))) := by
  have h := editPhone_notFound
    { name := "John", phones := [{ value := "1234567890" }] }
    "9999999999" "1112223333" (by decide)
  simpa using h

/-! ### Helper lemmas about add_phone and remove_phone -/

theorem mkPhone_ok (s : String) (p : Phone) (h : mkPhone s = Except.ok p) :
    p = { value := s } := by
  by_cases hc : s.length ≠ 10 ∨ (firstDigitRun s.data).length ≠ s.length
  · simp only [mkPhone, if_pos hc] at h
    exact Except.noConfusion h
  · simp only [mkPhone, if_neg hc] at h
    injection h with h2
    exact h2.symm

theorem addPhone_ok (r r1 : Record) (v : String)
    (h : addPhone r v = Except.ok r1) :
    r1 = { r with phones := r.phones ++ [{ value := v }] } := by
  unfold addPhone at h
  cases hmk : mkPhone v with
  | ok p =>
    rw [hmk] at h
    injection h with h2
    rw [mkPhone_ok v p hmk] at h2
    exact h2.symm
  | error e =>
    rw [hmk] at h
    exact Except.noConfusion h

theorem removePhone_absent (r : Record) (v : String)
    (h : ∀ p ∈ r.phones, p.value ≠ v) :
    removePhone r v = Except.error (PyError.typeError
      "'NoneType' object cannot be interpreted as an integer") := by
  have hfind : getPhoneByNumber r v = none :=
    (findPhoneAux_eq_none_iff v r.phones).mpr h
  simp [removePhone, listPop, hfind]

theorem removePhone_found (r : Record) (v : String)
    (h : ∃ p ∈ r.phones, p.value = v) :
    ∃ q l1 l2, r.phones = l1 ++ q :: l2 ∧ q.value = v ∧
      (∀ x ∈ l1, x.value ≠ v) ∧
      removePhone r v = Except.ok { r with phones := l1 ++ l2 } := by
  cases hf : findPhoneAux v r.phones with
  | none =>
    obtain ⟨p, hp, hv⟩ := h
    exact absurd hv ((findPhoneAux_eq_none_iff v r.phones).mp hf p hp)
  | some x =>
    obtain ⟨q, i⟩ := x
    obtain ⟨l1, l2, hsplit, hlen, hval, hfree⟩ :=
      findPhoneAux_eq_some v r.phones q i hf
    refine ⟨q, l1, l2, hsplit, hval, hfree, ?_⟩
    have hlt : i < r.phones.length := by
      rw [hsplit, ← hlen]
      simp
    have hfind : getPhoneByNumber r v = some (q, i) := hf
    have herase : r.phones.eraseIdx i = l1 ++ l2 := by
      rw [hsplit, ← hlen]
      exact eraseIdx_append_length l1 q l2
    simp [removePhone, listPop, hfind, hlt, herase]

/-! ### Claim C10: remove_phone raises exactly on absent values -/

/-- Claim C10: `remove_phone(v)` raises an error if and only if no phone in
the list has value `v` (on an absent value the index lookup yields `None`
and `list.pop(None)` raises a `TypeError` — never a silent no-op), and when
it raises the phone list is unchanged; when `v` is present, exactly the
first occurrence in list order is removed and the other phones keep their
relative order. -/
theorem removePhone_spec (r : Record) (v : String) :
    ((∀ p ∈ r.phones, p.value ≠ v) →
      removePhoneState r v = (r, some (PyError.typeError
        "'NoneType' object cannot be interpreted as an integer")))
    ∧ ((∃ p ∈ r.phones, p.value = v) →
      ∃ q l1 l2, r.phones = l1 ++ q :: l2 ∧ q.value = v ∧
        (∀ x ∈ l1, x.value ≠ v) ∧
        removePhoneState r v = ({ r with phones := l1 ++ l2 }, none))
    ∧ (∀ e, removePhone r v = Except.error e → ∀ p ∈ r.phones, p.value ≠ v) := by
  refine ⟨?_, ?_, ?_⟩
  · intro h
    simp [removePhoneState, removePhone_absent r v h]
  · intro h
    obtain ⟨q, l1, l2, hsplit, hval, hfree, hrem⟩ := removePhone_found r v h
    exact ⟨q, l1, l2, hsplit, hval, hfree, by simp [removePhoneState, hrem]⟩
  · intro e he p hp hv
    obtain ⟨q, l1, l2, _, _, _, hrem⟩ := removePhone_found r v ⟨p, hp, hv⟩
    rw [hrem] at he
    exact Except.noConfusion he


/-- Witness for C10: removing the absent value `1234567890` from a record
holding only `5555555555` raises the `TypeError` and leaves the record
unchanged, and removing the present value `1234567890` from a record
holding exactly it succeeds with the occurrence removed. -/
theorem removePhone_spec_witness :
    removePhoneState { name := "John", phones := [{ value := "5555555555" }] }
        "1234567890" =
      ({ name := "John", phones := [{ value := "5555555555" }] },
        some (PyError.typeError
          "'NoneType' object cannot be interpreted as an integer")) ∧
    ∃ q l1 l2,
      ([{ value := "1234567890" }] : List Phone) = l1 ++ q :: l2 ∧
        q.value = "1234567890" ∧ (∀ x ∈ l1, x.value ≠ "1234567890") ∧
        removePhoneState { name := "John", phones := [{ value := "1234567890" }] }
            "1234567890" =
          ({ name := "John", phones := l1 ++ l2 }, none) :=
  ⟨(removePhone_spec { name := "John", phones := [{ value := "5555555555" }] }
      "1234567890").1 (by decide),
    (removePhone_spec { name := "John", phones := [{ value := "1234567890" }] }
      "1234567890").2.1 ⟨{ value := "1234567890" }, by decide, by decide⟩⟩

/-! ### Claim C6: add_phone then remove_phone -/

/-- Counterexample to claim C6: John already holds `1234567890`; after
`add_phone("1234567890")` (two entries) and `remove_phone("1234567890")`
(one entry removed), `find_phone("1234567890")` still finds the phone, so
the value is not "no longer found". -/
theorem addRemove_cex :
    addPhone { name := "John", phones := [{ value := "1234567890" }] }
        "1234567890" =
      Except.ok { name := "John", phones := [{ value := "1234567890" }, { value := "1234567890" }] }
    ∧ removePhone { name := "John", phones := [{ value := "1234567890" }, { value := "1234567890" }] }
        "1234567890" =
      Except.ok { name := "John", phones := [{ value := "1234567890" }] }
    ∧ findPhone { name := "John", phones := [{ value := "1234567890" }] }
        "1234567890" = some { value := "1234567890" } :=
  ⟨rfl, rfl, rfl⟩

/-- Claim C6 as amended: after `add_phone(v)` (with `v` valid, so the add
succeeds) the subsequent `remove_phone(v)` succeeds and the list length
after the removal is exactly one less than after the add; moreover, when
the record did not already contain `v` before the add, `find_phone(v)` on
the result is absent. -/
theorem addRemove_spec (r r1 : Record) (v : String)
    (hadd : addPhone r v = Except.ok r1) :
    ∃ r2, removePhone r1 v = Except.ok r2 ∧
      r2.phones.length + 1 = r1.phones.length ∧
      ((∀ p ∈ r.phones, p.value ≠ v) → findPhone r2 v = none) := by
  have hr1 := addPhone_ok r r1 v hadd
  by_cases hv : ∀ p ∈ r.phones, p.value ≠ v
  · have hfind : findPhoneAux v r1.phones = some ({ value := v }, r.phones.length) := by
      rw [hr1]
      exact findPhoneAux_first v r.phones { value := v } [] hv rfl
    have hlt : r.phones.length < r1.phones.length := by
      rw [hr1]
      simp
    have herase : r1.phones.eraseIdx r.phones.length = r.phones := by
      rw [hr1]
      have := eraseIdx_append_length r.phones { value := v } []
      simpa using this
    refine ⟨{ r1 with phones := r.phones }, ?_, ?_, ?_⟩
    · simp [removePhone, listPop, getPhoneByNumber, hfind, hlt, herase]
    · rw [hr1]
      simp
    · intro _
      have hnone : findPhoneAux v r.phones = none :=
        (findPhoneAux_eq_none_iff v r.phones).mpr hv
      simp [findPhone, getPhoneByNumber, hnone]
  · push_neg at hv
    obtain ⟨p, hp, hpv⟩ := hv
    have hmem : ∃ q ∈ r1.phones, q.value = v := by
      rw [hr1]
      exact ⟨p, List.mem_append_left _ hp, hpv⟩
    obtain ⟨q, l1, l2, hsplit, hval, hfree, hrem⟩ := removePhone_found r1 v hmem
    refine ⟨{ r1 with phones := l1 ++ l2 }, hrem, ?_, ?_⟩
    · rw [hsplit]
      simp
      omega
    · intro habs
      exact absurd hpv (habs p hp)

/-- Witness for C6: adding `1234567890` to an empty record John and then
removing it leaves the value unfound, with the list one shorter. -/
theorem addRemove_spec_witness :
    ∃ r2, removePhone { name := "John", phones := [{ value := "1234567890" }] }
        "1234567890" = Except.ok r2 ∧
      r2.phones.length + 1 = 1 ∧
      ((∀ p ∈ ({ name := "John", phones := [] } : Record).phones,
          p.value ≠ "1234567890") → findPhone r2 "1234567890" = none) :=
  addRemove_spec { name := "John", phones := [] }
    { name := "John", phones := [{ value := "1234567890" }] } "1234567890" rfl

/-! ### Claim C5: edit_phone then find_phone -/

/-- Counterexample to claim C5: John holds `1234567890` twice; the edit to
the valid value `1112223333` succeeds (it rewrites the first occurrence),
yet `find_phone("1234567890")` still returns a phone rather than an absent
result, because the second occurrence remains. -/
theorem editFind_cex :
    editPhone { name := "John", phones := [{ value := "1234567890" }, { value := "1234567890" }] }
        "1234567890" "1112223333" =
      Except.ok { name := "John", phones := [{ value := "1112223333" }, { value := "1234567890" }] }
    ∧ findPhone { name := "John", phones := [{ value := "1112223333" }, { value := "1234567890" }] }
        "1234567890" = some { value := "1234567890" } :=
  ⟨rfl, rfl⟩

/-- Claim C5 as amended: when `old` occurs exactly once in the record's
phone list and `new ≠ old`, after a successful `edit_phone(old, new)`:
`find_phone(new)` returns a phone whose value equals `new`, and
`find_phone(old)` returns an absent result. -/
theorem editFind_spec (r : Record) (o n : String) (r2 : Record)
    (hcount : (r.phones.filter (fun p => p.value == o)).length = 1)
    (hne : n ≠ o)
    (hedit : editPhone r o n = Except.ok r2) :
    (∃ p, findPhone r2 n = some p ∧ p.value = n) ∧ findPhone r2 o = none := by
  cases hf : getPhoneByNumber r o with
  | none =>
    simp only [editPhone, hf] at hedit
    exact Except.noConfusion hedit
  | some x =>
    obtain ⟨p, i⟩ := x
    simp only [editPhone, hf] at hedit
    injection hedit with hr2
    obtain ⟨l1, l2, hsplit, hlen, hval, hfree⟩ :=
      findPhoneAux_eq_some o r.phones p i hf
    have hphones : r2.phones = l1 ++ { value := n } :: l2 := by
      rw [← hr2, hsplit, ← hlen]
      exact set_append_length l1 p l2 { value := n }
    have hl2 : ∀ x ∈ l2, x.value ≠ o := by
      have hfilter : (r.phones.filter (fun p => p.value == o)).length =
          1 + (l2.filter (fun p => p.value == o)).length := by
        rw [hsplit, List.filter_append]
        have h1 : l1.filter (fun p => p.value == o) = [] := by
          rw [List.filter_eq_nil_iff]
          intro a ha
          simp [hfree a ha]
        rw [h1]
        simp only [List.nil_append, List.filter_cons, hval, beq_self_eq_true,
          if_true, List.length_cons]
        omega
      rw [hcount] at hfilter
      have h2 : l2.filter (fun p => p.value == o) = [] := by
        have : (l2.filter (fun p => p.value == o)).length = 0 := by omega
        exact List.length_eq_zero.mp this
      intro x hx
      have := List.filter_eq_nil_iff.mp h2 x hx
      simpa using this
    constructor
    · cases hg : findPhoneAux n r2.phones with
      | none =>
        have hmem : ({ value := n } : Phone) ∈ r2.phones := by
          rw [hphones]
          simp
        exact absurd rfl ((findPhoneAux_eq_none_iff n r2.phones).mp hg _ hmem)
      | some y =>
        obtain ⟨q, j⟩ := y
        obtain ⟨_, _, _, _, hqval, _⟩ := findPhoneAux_eq_some n r2.phones q j hg
        exact ⟨q, by simp [findPhone, getPhoneByNumber, hg], hqval⟩
    · have hnone : findPhoneAux o r2.phones = none := by
        rw [findPhoneAux_eq_none_iff, hphones]
        intro x hx
        rcases List.mem_append.mp hx with hx1 | hx2
        · exact hfree x hx1
        · rcases List.mem_cons.mp hx2 with rfl | hx3
          · simpa using hne
          · exact hl2 x hx3
      simp [findPhone, getPhoneByNumber, hnone]

/-- Witness for the amended C5: John holds `1234567890` once; after editing
it to `1112223333`, the new value is found and the old one is absent. -/
theorem editFind_spec_witness :
    (∃ p, findPhone { name := "John", phones := [{ value := "1112223333" }] }
        "1112223333" = some p ∧ p.value = "1112223333")
    ∧ findPhone { name := "John", phones := [{ value := "1112223333" }] }
        "1234567890" = none :=
  editFind_spec { name := "John", phones := [{ value := "1234567890" }] }
    "1234567890" "1112223333" { name := "John", phones := [{ value := "1112223333" }] }
    (by decide) (by decide) rfl

/-! ### Claim C4: duplicate add_record -/

/-- Claim C4: when the book already stores a record under `r.name`,
`add_record(r)` fails with `RecordAlreadyExistsException` — a kind distinct
from `ValueError` — and the book, including the previously stored record,
is left untouched. -/
theorem addRecord_dup (b : Book) (r r0 : Record)
    (h : bookFind b r.name = some r0) :
    addRecordState b r =
      (b, some (PyError.recordAlreadyExists
        ("Record with the name '" ++ r.name ++
          "' already exists in the address book dictionary")))
    ∧ bookFind (addRecordState b r).1 r.name = some r0
    ∧ ∀ m, PyError.recordAlreadyExists
        ("Record with the name '" ++ r.name ++
          "' already exists in the address book dictionary")
        ≠ PyError.valueError m := by
  have h1 : addRecord b r = Except.error (PyError.recordAlreadyExists
      ("Record with the name '" ++ r.name ++
        "' already exists in the address book dictionary")) := by
    simp [addRecord, h]
  refine ⟨by simp [addRecordState, h1], ?_, by intro m; simp⟩
  simp [addRecordState, h1, h]

/-- Witness for C4: adding a second record named John fails with the
duplicate-record error and the original John record is still found. -/
theorem addRecord_dup_witness :
    addRecordState [("John", { name := "John", phones := [{ value := "1234567890" }] })]
        { name := "John", phones := [] } =
      ([("John", { name := "John", phones := [{ value := "1234567890" }] })],
        some (PyError.recordAlreadyExists
          ("Record with the name 'John' already exists in the address book dictionary")))
    ∧ bookFind (addRecordState
        [("John", { name := "John", phones := [{ value := "1234567890" }] })]
        { name := "John", phones := [] }).1 "John" =
      some { name := "John", phones := [{ value := "1234567890" }] }
    ∧ ∀ m, PyError.recordAlreadyExists
        "Record with the name 'John' already exists in the address book dictionary"
        ≠ PyError.valueError m := by
  have h := addRecord_dup
    [("John", { name := "John", phones := [{ value := "1234567890" }] })]
    { name := "John", phones := [] }
    { name := "John", phones := [{ value := "1234567890" }] } rfl
  simpa using h

/-! ### Claim C7: delete -/

theorem bookFind_eraseP (b : Book) (n : String) (r : Record)
    (h : bookFind b n = some r) :
    ∃ l1 l2, b = l1 ++ (n, r) :: l2 ∧ (∀ e ∈ l1, e.1 ≠ n) ∧
      b.eraseP (fun e => e.1 == n) = l1 ++ l2 := by
  induction b with
  | nil => simp [bookFind] at h
  | cons e bs ih =>
    by_cases he : e.1 = n
    · have hbeq : (e.1 == n) = true := by simpa using he
      have hfind : bookFind (e :: bs) n = some e.2 := by
        simp [bookFind, List.find?_cons_of_pos, hbeq]
      rw [hfind] at h
      injection h with h2
      refine ⟨[], bs, ?_, by simp, ?_⟩
      · cases e
        simp only [List.nil_append, List.cons.injEq, and_true, Prod.mk.injEq]
        exact ⟨he, h2⟩
      · simp [List.eraseP_cons_of_pos, hbeq]
    · have hbeq : (e.1 == n) = false := by simpa using he
      have hfind : bookFind (e :: bs) n = bookFind bs n := by
        simp [bookFind, List.find?_cons_of_neg, hbeq]
      rw [hfind] at h
      obtain ⟨l1, l2, h1, h2, h3⟩ := ih h
      refine ⟨e :: l1, l2, by rw [h1]; rfl, ?_, ?_⟩
      · intro x hx
        rcases List.mem_cons.mp hx with rfl | hx2
        · exact he
        · exact h2 x hx2
      · simp only [List.eraseP_cons, hbeq, cond_false, h3]
        rfl

/-- Claim C7: `delete(n)` on an absent name is a no-op raising no error —
the book is returned unchanged — and on a present name it removes exactly
the entry for `n`, leaving every other entry in place and in order. -/
theorem delete_spec (b : Book) (n : String) :
    (bookFind b n = none → bookDelete b n = b)
    ∧ (∀ r, bookFind b n = some r →
        ∃ l1 l2, b = l1 ++ (n, r) :: l2 ∧ (∀ e ∈ l1, e.1 ≠ n) ∧
          bookDelete b n = l1 ++ l2) := by
  constructor
  · intro h
    simp [bookDelete, h]
  · intro r h
    obtain ⟨l1, l2, h1, h2, h3⟩ := bookFind_eraseP b n r h
    refine ⟨l1, l2, h1, h2, ?_⟩
    rw [bookDelete, h]
    exact h3

/-- Witness for C7: deleting the absent name Jane from a book holding only
John leaves the book unchanged, and deleting the present name John removes
exactly John's entry. -/
theorem delete_spec_witness :
    bookDelete [("John", { name := "John", phones := [] })] "Jane" =
      [("John", { name := "John", phones := [] })]
    ∧ ∃ l1 l2,
        ([("John", { name := "John", phones := [] })] : Book) =
          l1 ++ ("John", { name := "John", phones := [] }) :: l2
        ∧ (∀ e ∈ l1, e.1 ≠ "John")
        ∧ bookDelete [("John", { name := "John", phones := [] })] "John" =
            l1 ++ l2 :=
  ⟨(delete_spec [("John", { name := "John", phones := [] })] "Jane").1 rfl,
    (delete_spec [("John", { name := "John", phones := [] })] "John").2
      { name := "John", phones := [] } rfl⟩

/-! ### Claim C9: the string representation -/

/-- Claim C9: every record prints as `"Contact name: "` followed by the
name, `", phones: "`, and the phone values joined by `"; "` in list order;
in particular the record John with phones `1234567890` and `5555555555`,
after `edit_phone("1234567890", "1112223333")`, prints as
`"Contact name: John, phones: 1112223333; 5555555555"`. -/
theorem recordStr_spec :
    (∀ r : Record, recordStr r = "Contact name: " ++ r.name ++ ", phones: " ++
        String.intercalate "; " (r.phones.map Phone.value))
    ∧ Except.map recordStr
        (Except.bind
          (Except.bind (addPhone { name := "John", phones := [] } "1234567890")
            (fun r1 => addPhone r1 "5555555555"))
          (fun r2 => editPhone r2 "1234567890" "1112223333"))
      = Except.ok "Contact name: John, phones: 1112223333; 5555555555" :=
  ⟨fun _ => rfl, rfl⟩

/-! ### Claim C8: the key-consistency invariant -/

theorem bookFind_eq_none_iff (b : Book) (n : String) :
    bookFind b n = none ↔ ∀ e ∈ b, e.1 ≠ n := by
  simp [bookFind, List.find?_eq_none]

theorem bookFind_eq_some_mem (b : Book) (n : String) (r : Record)
    (h : bookFind b n = some r) : ∃ e ∈ b, e.1 = n ∧ e.2 = r := by
  obtain ⟨e, hfind, hsnd⟩ := Option.map_eq_some'.mp h
  have hmem := List.mem_of_find?_eq_some hfind
  have hp := List.find?_some hfind
  exact ⟨e, hmem, by simpa using hp, hsnd⟩

theorem addRecord_ok_shape (b : Book) (r : Record) (b2 : Book)
    (h : addRecord b r = Except.ok b2) :
    bookFind b r.name = none ∧ b2 = b ++ [(r.name, r)] := by
  unfold addRecord at h
  cases hf : bookFind b r.name with
  | none =>
    rw [hf] at h
    injection h with h2
    exact ⟨rfl, h2.symm⟩
  | some _ =>
    rw [hf] at h
    exact Except.noConfusion h

theorem editPhone_ok_name (r r2 : Record) (o n : String)
    (h : editPhone r o n = Except.ok r2) : r2.name = r.name := by
  unfold editPhone at h
  cases hf : getPhoneByNumber r o with
  | some x =>
    rw [hf] at h
    injection h with h2
    rw [← h2]
  | none =>
    rw [hf] at h
    exact Except.noConfusion h

theorem removePhone_ok_name (r r2 : Record) (v : String)
    (h : removePhone r v = Except.ok r2) : r2.name = r.name := by
  unfold removePhone at h
  cases hp : listPop r.phones ((getPhoneByNumber r v).map (fun x => x.2)) with
  | ok ps =>
    rw [hp] at h
    injection h with h2
    rw [← h2]
  | error e =>
    rw [hp] at h
    exact Except.noConfusion h

theorem applyPhoneOp_name (r : Record) (op : PhoneOp) :
    (applyPhoneOp r op).name = r.name := by
  cases op with
  | add v =>
    simp only [applyPhoneOp, addPhoneState]
    cases h : addPhone r v with
    | ok r2 => rw [addPhone_ok r r2 v h]
    | error e => rfl
  | edit o n =>
    simp only [applyPhoneOp, editPhoneState]
    cases h : editPhone r o n with
    | ok r2 => exact editPhone_ok_name r r2 o n h
    | error e => rfl
  | remove v =>
    simp only [applyPhoneOp, removePhoneState]
    cases h : removePhone r v with
    | ok r2 => exact removePhone_ok_name r r2 v h
    | error e => rfl

theorem updateRecord_keys (b : Book) (n : String) (r2 : Record) :
    (updateRecord b n r2).map Prod.fst = b.map Prod.fst := by
  induction b with
  | nil => rfl
  | cons e bs ih =>
    simp only [updateRecord, List.map_cons] at ih ⊢
    rw [ih]
    by_cases h : e.1 == n
    · simp [h]
    · simp [h]

/-- Claim C8: in every book reachable from the empty `AddressBook` by the
public operations (`add_record`, `delete`, `find`, and the phone operations
applied to stored records), every key equals the name of the record stored
under it and the keys are unique. -/
theorem reachable_keyInvariant (b : Book) (h : Reachable b) : keyInvariant b := by
  induction h with
  | empty => exact ⟨by simp, by simp⟩
  | addOk b r b2 hreach hadd ih =>
    obtain ⟨hnone, rfl⟩ := addRecord_ok_shape b r b2 hadd
    obtain ⟨ih1, ih2⟩ := ih
    constructor
    · intro e he
      rcases List.mem_append.mp he with h1 | h2
      · exact ih1 e h1
      · have : e = (r.name, r) := by simpa using h2
        rw [this]
    · rw [List.map_append]
      have hnotin : r.name ∉ b.map Prod.fst := by
        intro hmem
        obtain ⟨e, he, hfst⟩ := List.mem_map.mp hmem
        exact absurd hfst ((bookFind_eq_none_iff b r.name).mp hnone e he)
      simp [List.nodup_append, ih2, hnotin]
  | del b n hreach ih =>
    obtain ⟨ih1, ih2⟩ := ih
    cases hf : bookFind b n with
    | none =>
      have hb : bookDelete b n = b := by simp [bookDelete, hf]
      rw [hb]
      exact ⟨ih1, ih2⟩
    | some r =>
      simp only [bookDelete, hf]
      have hsub : (b.eraseP (fun e => e.1 == n)).Sublist b := List.eraseP_sublist b
      constructor
      · intro e he
        exact ih1 e (hsub.subset he)
      · exact List.Nodup.sublist (List.Sublist.map Prod.fst hsub) ih2
  | phoneOp b n r op hreach hfind ih =>
    obtain ⟨ih1, ih2⟩ := ih
    have hname : (applyPhoneOp r op).name = r.name := applyPhoneOp_name r op
    have hrn : r.name = n := by
      obtain ⟨e, he, hfst, hsnd⟩ := bookFind_eq_some_mem b n r hfind
      rw [← hfst, ih1 e he, hsnd]
    constructor
    · intro e2 he2
      obtain ⟨e, he, hedef⟩ := List.mem_map.mp he2
      by_cases hkey : e.1 == n
      · rw [← hedef]
        simp only [hkey, if_true]
        have : e.1 = n := by simpa using hkey
        rw [this, hname, hrn]
      · rw [← hedef]
        simp only [hkey]
        simp only [Bool.false_eq_true, if_false]
        exact ih1 e he
    · rw [updateRecord_keys]
      exact ih2

/-- Witness for C8: the book holding John with phone `1234567890` is
reachable (empty book, `add_record` of an empty John record, then
`add_phone` on the stored record) and satisfies the key invariant. -/
theorem reachable_keyInvariant_witness :
    keyInvariant [("John", { name := "John", phones := [{ value := "1234567890" }] })] := by
  have h1 : Reachable [("John", { name := "John", phones := [] })] :=
    Reachable.addOk [] { name := "John", phones := [] }
      [("John", { name := "John", phones := [] })] Reachable.empty rfl
  have h2 := Reachable.phoneOp [("John", { name := "John", phones := [] })]
    "John" { name := "John", phones := [] } (PhoneOp.add "1234567890") h1 rfl
  have he : updateRecord [("John", { name := "John", phones := [] })] "John"
      (applyPhoneOp { name := "John", phones := [] } (PhoneOp.add "1234567890")) =
      [("John", { name := "John", phones := [{ value := "1234567890" }] })] := rfl
  exact he ▸ reachable_keyInvariant _ h2
